import Mathlib

/-!
# Verification of the `walk` directory-walking utility

Shallow embedding of `main.go` of the `walk` utility (a Plan 9-style
directory walker): the depth-range parser, the depth/type filter chain
of the walk callback, the output formatter (`printPath`), the command
template expansion (`runCmd`), and the traversal driver built on
`filepath.Walk`, together with theorems checking the program's
documented behaviour.

Conventions of the embedding:
* Go `int` is modelled as `Int`; `strconv.Atoi`'s 64-bit range check is
  kept explicit.
* `os.PathSeparator` is `'/'`.
* Strings are manipulated through their character lists (`String.data`),
  matching Go's rune-by-rune `text/scanner` loops.  The two scanners are
  run with `Mode = ScanStrings` resp. `ScanChars` and all whitespace
  skipping disabled, so for inputs free of the corresponding quote
  character (`'"'` for format strings, `'\''` for command templates)
  they deliver the input one character at a time; the embedding covers
  those inputs.
-/

/-- Accumulated decimal value of a digit list, as `strconv.Atoi`
accumulates digits left to right. -/
def decimalValue (l : List Char) : Nat :=
  l.foldl (fun acc c => acc * 10 + (c.toNat - '0'.toNat)) 0

/-- Embeds Go's `strconv.Atoi` (base 10, bit size of `int` = 64):
an optional single leading sign followed by at least one decimal digit,
value required to fit in a signed 64-bit integer; `none` models a
returned error. -/
def atoiCore (l : List Char) : Option Int :=
  match l with
  | [] => none
  | c :: rest =>
    let digits := if c == '-' || c == '+' then rest else l
    if digits.isEmpty then none
    else if digits.all Char.isDigit then
      let m : Int := (decimalValue digits : Int)
      let n : Int := if c == '-' then -m else m
      if -(2 ^ 63) ≤ n ∧ n ≤ 2 ^ 63 - 1 then some n else none
    else none

/-- `strconv.Atoi` on a `String`. -/
def atoi (s : String) : Option Int := atoiCore s.data

/-- Embeds `strings.Split(r, ",")`: the comma-separated parts of a
character list.  Like Go's `Split` with a non-empty separator, the
result is never empty and splitting the empty string yields `[[]]`. -/
def splitComma : List Char → List (List Char)
  | [] => [[]]
  | c :: rest =>
    if c == ',' then [] :: splitComma rest
    else
      match splitComma rest with
      | [] => [[c]]
      | p :: ps => (c :: p) :: ps

instance {ε α : Type} [DecidableEq ε] [DecidableEq α] : DecidableEq (Except ε α) := fun a b =>
  match a, b with
  | Except.error e, Except.error e' =>
    if h : e = e' then isTrue (by rw [h]) else isFalse (by intro hc; cases hc; exact h rfl)
  | Except.ok x, Except.ok y =>
    if h : x = y then isTrue (by rw [h]) else isFalse (by intro hc; cases hc; exact h rfl)
  | Except.error _, Except.ok _ => isFalse (by intro hc; cases hc)
  | Except.ok _, Except.error _ => isFalse (by intro hc; cases hc)

/-- `true` exactly on `Except.error`. -/
def isErrE {ε α : Type} : Except ε α → Bool
  | Except.error _ => true
  | Except.ok _ => false

/-- `true` exactly on `Except.ok`. -/
def isOkE {ε α : Type} : Except ε α → Bool
  | Except.error _ => false
  | Except.ok _ => true

/-- One iteration of `parseRange`'s loop over the comma-separated
parts: `strconv.Atoi` on the part; on failure an empty part stands for
the sentinel `-1` (unset) and a non-empty part is an error. -/
def parsePart (part : List Char) : Except String Int :=
  match atoiCore part with
  | some n => Except.ok n
  | none =>
    if part.isEmpty then Except.ok (-1)
    else Except.error ("invalid syntax: " ++ String.mk part)

/-- Embeds `parseRange`: `mindepth`/`maxdepth` start at the sentinel
`-1`; an empty spec leaves both unset; a spec whose comma-split has
more than two parts is an invalid range; otherwise part 0 sets
`mindepth` and part 1 (when present) sets `maxdepth`.  The source's
`len(parts) < 1` branch (intended to treat a comma-free spec as a bare
maximum) is kept, although `strings.Split` never returns an empty
slice, so it is unreachable. -/
def parseRange (r : String) : Except String (Int × Int) :=
  if r = "" then Except.ok (-1, -1)
  else if (splitComma r.data).length < 1 then
    match atoi r with
    | some n => Except.ok (-1, n)
    | none => Except.error ("invalid syntax: " ++ r)
  else if (splitComma r.data).length > 2 then Except.error ("invalid range " ++ r)
  else
    match splitComma r.data with
    | [p0] =>
      match parsePart p0 with
      | Except.error e => Except.error e
      | Except.ok n0 => Except.ok (n0, -1)
    | [p0, p1] =>
      match parsePart p0 with
      | Except.error e => Except.error e
      | Except.ok n0 =>
        match parsePart p1 with
        | Except.error e => Except.error e
        | Except.ok n1 => Except.ok (n0, n1)
    | _ => Except.error ("invalid range " ++ r)

/-- The per-entry metadata the program reads: `fs.FileInfo` together
with the `syscall.Stat_t` fields it inspects (`Uid`, `Gid`, `Atim`).
On the target platform the `info.Sys().(*syscall.Stat_t)` assertion
always succeeds, so the stat fields are carried directly.  `Atim` is
carried as its seconds value (nanoseconds in `[0, 1e9)`, so
`time.Unix(sec, nsec).Unix() = sec`). -/
structure FileInfo where
  name : String
  isDir : Bool
  /-- the nine permission bits, `info.Mode().Perm()` -/
  perm : Nat
  size : Int
  /-- `info.ModTime().Unix()` -/
  modTime : Int
  /-- `stat.Atim`, seconds -/
  atimSec : Int
  /-- `stat.Uid` -/
  uid : Nat
  /-- `stat.Gid` (present in the metadata; the program never reads it) -/
  gid : Nat
deriving Repr, DecidableEq

/-- The record returned by the `os/user` lookup collaborator
(`user.LookupId`): `Uid`, `Gid` and `Name` are strings. -/
structure GoUser where
  uid : String
  gid : String
  name : String
deriving Repr, DecidableEq

/-- The user-lookup collaborator, `user.LookupId`: keyed by the decimal
uid string; `none` models a lookup error. -/
def UserLookup : Type := String → Option GoUser

/-- The program's configuration after flag parsing and `parseRange`:
the four flags, the parsed depth bounds (sentinel `-1` = unset), the
format string of `-e` (default `"p"`), and the command template joined
from the arguments after `!` (empty = print mode). -/
structure Config where
  dirFlag : Bool
  fileFlag : Bool
  exeFlag : Bool
  mindepth : Int
  maxdepth : Int
  statfmt : String
  cmd : String
deriving Repr, DecidableEq

/-- `info.Mode().Perm().String()`: no type bits are set after `Perm()`,
so the mode prints as `'-'` followed by the nine `rwx` permission
positions. -/
def permString (perm : Nat) : String :=
  let cs := ['r', 'w', 'x', 'r', 'w', 'x', 'r', 'w', 'x']
  String.mk ('-' :: (List.range 9).map fun i =>
    if perm / 2 ^ (8 - i) % 2 = 1 then cs.getD i '-' else '-')

/-- One iteration of `printPath`'s scanner loop: the text printed for
one token of the format string.  `U`, `G`, `M` and `a` first call
`user.LookupId(fmt.Sprint(stat.Uid))` and propagate its error; every
other token, recognized or literal, cannot fail. -/
def renderTok (lookup : UserLookup) (path : String) (info : FileInfo)
    (tok : Char) : Except String String :=
  if tok = 'U' ∨ tok = 'G' ∨ tok = 'M' ∨ tok = 'a' then
    match lookup (toString info.uid) with
    | none => Except.error ("user: unknown userid " ++ toString info.uid)
    | some u =>
      Except.ok (if tok = 'U' then u.uid
        else if tok = 'G' then u.gid
        else if tok = 'M' then u.name
        else toString info.atimSec)
  else if tok = 'm' then Except.ok (toString info.modTime)
  else if tok = 'n' then Except.ok info.name
  else if tok = 's' then Except.ok (toString info.size)
  else if tok = 'p' then Except.ok path
  else if tok = 'x' then Except.ok (permString info.perm)
  else Except.ok (String.singleton tok)

/-- `printPath`'s token loop over the format string: append each
token's text to the output already printed (`acc`), follow it by one
space whenever the scanner has not reached EOF, and finish the line
with a newline; a failed lookup returns the error with the partial
line already emitted. -/
def renderLoop (lookup : UserLookup) (path : String) (info : FileInfo) :
    List Char → String → String × Option String
  | [], acc => (acc ++ "\n", none)
  | tok :: rest, acc =>
    match renderTok lookup path info tok with
    | Except.error e => (acc, some e)
    | Except.ok out =>
      renderLoop lookup path info rest
        (if rest.isEmpty then acc ++ out else acc ++ out ++ " ")

/-- `runCmd`'s scanner loop building the expanded command line: with
the current token in hand, a `\` whose next character is `%` consumes
the `%` and emits it literally; any other token whose next character
is `%` is dropped together with the `%` and the character after it,
the entry's path being appended instead; otherwise the token is copied.
-/
def expandLoop (path : String) : List Char → String → String
  | [], acc => acc
  | '\\' :: '%' :: rest, acc => expandLoop path rest (acc.push '%')
  | tok :: '%' :: c2 :: rest, acc =>
    if tok = '\\' then expandLoop path (c2 :: rest) (acc.push '%')
    else expandLoop path rest (acc ++ path)
  | tok :: '%' :: [], acc =>
    if tok = '\\' then acc.push '%'
    else acc ++ path
  | tok :: rest, acc => expandLoop path rest (acc.push tok)

/-- `runCmd`'s command-line expansion of the template `cmd` for one
entry path (the part of `runCmd` before the `/bin/sh -c` call). -/
def runCmdExpand (cmd : String) (path : String) : String :=
  expandLoop path cmd.data ""

/-- What one surviving entry makes the program do: print a line (or,
on a failed lookup, a partial line) to standard output, or hand an
expanded command line to `/bin/sh -c`. -/
inductive Emit where
  | line (s : String)
  | dispatch (cmdline : String)
deriving Repr, DecidableEq

/-- Embeds `printPath`: with a command template present the entry is
dispatched to `runCmd` (which always returns `nil`: even a failed
command only logs to the error stream); otherwise the format string is
rendered, possibly returning a lookup error. -/
def printPath (cfg : Config) (lookup : UserLookup) (path : String)
    (info : FileInfo) : List Emit × Option String :=
  if cfg.cmd ≠ "" then
    ([Emit.dispatch (runCmdExpand cfg.cmd path)], none)
  else
    match renderLoop lookup path info cfg.statfmt.data "" with
    | (out, e) => ([Emit.line out], e)

/-- `strings.Count(s, string(os.PathSeparator))`: the number of path
separators in a path string. -/
def countSep (s : String) : Nat := s.data.count '/'

/-- The depth filter of the walk callback: the configured bounds, with
a negative (unset) bound replaced by the entry's own depth, and the
entry skipped when its depth falls outside `[min, max]`.  Returns
`true` when the entry is skipped. -/
def depthSkip (mindepth maxdepth depth : Int) : Bool :=
  decide (depth < (if mindepth < 0 then depth else mindepth)) ||
    decide ((if maxdepth < 0 then depth else maxdepth) < depth)

/-- Embeds the anonymous `filepath.WalkFunc` closure in `main`: a
traversal error for the entry is returned as-is; the entry's depth is
the separator count of its path minus the root's; the depth filter and
then the `-d`/`-f` type filter may skip the entry; a surviving entry
goes to `printPath`.  The result pairs each emission with the path it
was produced for.  `cfg.exeFlag` is declared by the program but never
consulted here. -/
def walkFn (cfg : Config) (lookup : UserLookup) (rootdepth : Int)
    (path : String) (info : FileInfo) (errIn : Option String) :
    List (String × Emit) × Option String :=
  match errIn with
  | some e => ([], some e)
  | none =>
    let depth : Int := (countSep path : Int) - rootdepth
    if depthSkip cfg.mindepth cfg.maxdepth depth then ([], none)
    else if (!info.isDir && cfg.dirFlag) || (info.isDir && cfg.fileFlag) then ([], none)
    else
      match printPath cfg lookup path info with
      | (es, e) => (es.map (fun em => (path, em)), e)

/-- A filesystem subtree as `filepath.Walk` enumerates it: the entry's
metadata, whether reading the directory fails (`readDirNames` error,
e.g. permission denied), and the children in the enumeration order
(`readDirNames` returns them sorted by name).  A non-directory's
children list is empty. -/
inductive FSTree where
  | node (info : FileInfo) (readErr : Bool) (children : List FSTree)
deriving Repr

/-- The metadata at the root of a subtree. -/
def FSTree.info : FSTree → FileInfo
  | .node i _ _ => i

/-- What a walk produces: the paths the callback was invoked on, the
emissions with their paths, and the error `filepath.Walk` returns
(our callback never returns `SkipDir`, so any error aborts the walk).
-/
abbrev WalkRes : Type := List String × List (String × Emit) × Option String

/-- The error `readDirNames` reports for a directory whose contents
cannot be read (`none` when reading succeeds). -/
def readErrOf (readErr : Bool) (path : String) : Option String :=
  if readErr then some ("open " ++ path ++ ": permission denied") else none

mutual

/-- Embeds `filepath.Walk`'s recursive `walk` on a subtree rooted at
`path`: a non-directory is just handed to the callback; for a
directory the callback first sees the directory itself (with the
read-directory error, if any), an error stops there, and otherwise the
children are walked in order under `path ++ "/" ++ name`. -/
def walkTree (cfg : Config) (lookup : UserLookup) (rootdepth : Int)
    (path : String) : FSTree → WalkRes
  | FSTree.node info readErr children =>
    if !info.isDir then
      match walkFn cfg lookup rootdepth path info none with
      | (es, e) => ([path], es, e)
    else
      match walkFn cfg lookup rootdepth path info (readErrOf readErr path) with
      | (es, e1) =>
        if (readErrOf readErr path).isSome || e1.isSome then ([path], es, e1)
        else
          match walkChildren cfg lookup rootdepth path children with
          | (v, es2, e2) => (path :: v, es ++ es2, e2)

/-- The loop of `walk` over a directory's children: each child is
walked under its joined path; a child's error aborts the loop (the
callback never returns `SkipDir`). -/
def walkChildren (cfg : Config) (lookup : UserLookup) (rootdepth : Int)
    (dirPath : String) : List FSTree → WalkRes
  | [] => ([], [], none)
  | t :: ts =>
    match walkTree cfg lookup rootdepth (dirPath ++ "/" ++ t.info.name) t with
    | (v, es, some e) => (v, es, some e)
    | (v, es, none) =>
      match walkChildren cfg lookup rootdepth dirPath ts with
      | (v2, es2, e2) => (v ++ v2, es ++ es2, e2)

end

/-- Embeds `filepath.Walk` for one root argument: a missing root is an
`lstat` error handed to the callback, which returns it; otherwise the
subtree is walked with the root depth main computed from the argument.
The filesystem at the argument is given as `none` (nonexistent) or the
subtree found there. -/
def filepathWalk (cfg : Config) (lookup : UserLookup) (arg : String)
    (root : Option FSTree) : WalkRes :=
  match root with
  | none => ([arg], [], some ("lstat " ++ arg ++ ": no such file or directory"))
  | some t => walkTree cfg lookup (countSep arg : Int) arg t

/-- Main's normalisation of a root argument: one trailing path
separator is trimmed from arguments longer than one character
(`strings.HasSuffix`/`strings.TrimSuffix` with the one-character
separator, phrased on the character list). -/
def trimArg (arg : String) : String :=
  if arg.data.getLast? = some '/' ∧ arg.data.length > 1 then
    String.mk arg.data.dropLast
  else arg

/-- Stands for the text `flag.Usage` writes to the error stream (the
usage line and the flag defaults); its exact content is produced by
the `flag` package and does not matter to any claim. -/
def usageText : String :=
  "Usage: walk [-dfx] [-n min,max] [-e fmt] ... [! cmd] \n"

/-- What a run of the program produces: callback invocations,
emissions, error-stream text, and `some code` when `os.Exit(code)` was
reached. -/
structure RunResult where
  visited : List String
  emits : List (String × Emit)
  errOut : String
  exitCode : Option Nat
deriving Repr, DecidableEq

/-- Main's loop over the root arguments: each argument is trimmed, its
root depth taken as its separator count, and `filepath.Walk` run on
it; a returned error is written to the error stream followed by the
usage text and the process exits with status 1, abandoning the
remaining arguments. -/
def runRoots (cfg : Config) (lookup : UserLookup) :
    List (String × Option FSTree) → RunResult
  | [] => ⟨[], [], "", none⟩
  | (arg, root) :: rest =>
    match filepathWalk cfg lookup (trimArg arg) root with
    | (v, es, some msg) => ⟨v, es, "error: " ++ msg ++ "\n" ++ usageText, some 1⟩
    | (v, es, none) =>
      match runRoots cfg lookup rest with
      | ⟨v2, es2, errO, code⟩ => ⟨v ++ v2, es ++ es2, errO, code⟩

/-- Embeds `main` from `parseRange` on: a range error is written to
the error stream with the usage text and the process exits 1 before
any walking; otherwise the parsed bounds complete the configuration
and the roots are walked. -/
def mainRun (dirFlag fileFlag exeFlag : Bool) (rangeSpec statfmt cmdArg : String)
    (lookup : UserLookup) (roots : List (String × Option FSTree)) : RunResult :=
  match parseRange rangeSpec with
  | Except.error e => ⟨[], [], "error: " ++ e ++ "\n" ++ usageText, some 1⟩
  | Except.ok (mn, mx) =>
    runRoots ⟨dirFlag, fileFlag, exeFlag, mn, mx, statfmt, cmdArg⟩ lookup roots

/-- Whether a character is one of the recognized field codes of the
format mini-language. -/
def isFieldCode (c : Char) : Bool :=
  ['U', 'G', 'M', 'a', 'm', 'n', 's', 'p', 'x'].contains c

/-- The text a token contributes to the line, with a failed lookup
contributing the empty string. -/
def tokText (lookup : UserLookup) (path : String) (info : FileInfo)
    (tok : Char) : String :=
  match renderTok lookup path info tok with
  | Except.ok s => s
  | Except.error _ => ""

/-- Modelled from the spec: the renderer's separator rule as §4.4
states it — a single space follows every recognized field code's
output except the format string's last token, literal characters are
not followed by an injected separator, and the line is terminated by a
newline.  (The program itself, `renderLoop`, is compared against
this.) -/
def renderSpec (lookup : UserLookup) (path : String) (info : FileInfo) :
    List Char → String
  | [] => "\n"
  | [t] => tokText lookup path info t ++ "\n"
  | t :: rest =>
    tokText lookup path info t ++ (if isFieldCode t then " " else "") ++
      renderSpec lookup path info rest

/-- The record of the group-lookup collaborator named by the spec. -/
structure GoGroup where
  gid : String
  name : String
deriving Repr, DecidableEq

/-- Modelled from the spec: the "group-lookup collaborator" of §4.4's
table, resolving group metadata to the owning group's
identifier/name record; `main.go` has no such collaborator (it only
imports `os/user`'s user lookup). -/
def GroupLookup : Type := String → Option GoGroup

/-- Modelled from the spec: the value the spec prescribes for the `G`
field — the entry's owning group identifier/name, obtained by applying
the group-lookup collaborator to the entry's group metadata. -/
def gFieldAsSpecified (lookupGroup : GroupLookup) (info : FileInfo) :
    Option GoGroup :=
  lookupGroup (toString info.gid)

/-- Right-fold concatenation with the single-space separator the
renderer puts between consecutive tokens. -/
def joinSep : List String → String
  | [] => ""
  | [s] => s
  | s :: rest => s ++ " " ++ joinSep rest

/-! ## Concrete fixtures used by the theorems -/

/-- A user-lookup environment in which every lookup fails. -/
def lkNone : UserLookup := fun _ => none

/-- A user-lookup environment: uid `0` resolves to a user whose
primary group id is `50`. -/
def lkRoot : UserLookup :=
  fun s => if s = "0" then some ⟨"0", "50", "root"⟩ else none

/-- A group-lookup environment (spec collaborator): gid `100` resolves
to the group `wheel`. -/
def grpWheel : GroupLookup :=
  fun s => if s = "100" then some ⟨"100", "wheel"⟩ else none

/-- A regular file owned by uid 0 and group 100, 42 bytes. -/
def fiF (nm : String) (perm : Nat) : FileInfo :=
  ⟨nm, false, perm, 42, 5, 7, 0, 100⟩

/-- A directory owned by uid 0 and group 100. -/
def fiD (nm : String) : FileInfo := ⟨nm, true, 0o755, 0, 3, 4, 0, 100⟩

/-- Default configuration: no flags, no depth range, format `p`. -/
def cfgP : Config := ⟨false, false, false, -1, -1, "p", ""⟩

/-- Like `cfgP` with the `-x` (executable-only) flag set. -/
def cfgX : Config := ⟨false, false, true, -1, -1, "p", ""⟩

/-- Like `cfgP` with a configured maximum depth of 0. -/
def cfgM0 : Config := ⟨false, false, false, -1, 0, "p", ""⟩

/-- Like `cfgP` with format string `G`. -/
def cfgG : Config := ⟨false, false, false, -1, -1, "G", ""⟩

/-- A directory `a` with an unreadable subdirectory `b` followed by a
file `c`. -/
def tReadErr : FSTree :=
  FSTree.node (fiD "a") false
    [FSTree.node (fiD "b") true [], FSTree.node (fiF "c" 0o644) false []]

/-- A directory `a` containing a directory `c` containing a file `g`. -/
def tDeep : FSTree :=
  FSTree.node (fiD "a") false
    [FSTree.node (fiD "c") false [FSTree.node (fiF "g" 0o644) false []]]

/-! ## Helper lemmas -/

theorem atoiCore_not_comma {l : List Char} {n : Int}
    (h : atoiCore l = some n) : ',' ∉ l := by
  intro hmem
  cases l with
  | nil => simp at hmem
  | cons c rest =>
    simp only [atoiCore] at h
    by_cases hs : (c == '-' || c == '+') = true
    · rw [if_pos hs] at h
      have hdig : rest.all Char.isDigit = true := by
        by_contra hx
        simp [hx] at h
      rcases List.mem_cons.mp hmem with hc | hr
      · rw [← hc] at hs
        simp at hs
      · have hd := List.all_eq_true.mp hdig ',' hr
        revert hd
        decide
    · rw [if_neg hs] at h
      have hdig : (c :: rest).all Char.isDigit = true := by
        by_contra hx
        simp [hx] at h
      have hd := List.all_eq_true.mp hdig ',' hmem
      revert hd
      decide

theorem splitComma_ne_nil (l : List Char) : splitComma l ≠ [] := by
  cases l with
  | nil => simp [splitComma]
  | cons c rest =>
    unfold splitComma
    split
    · simp
    · split <;> simp

theorem splitComma_length (l : List Char) :
    (splitComma l).length = l.count ',' + 1 := by
  induction l with
  | nil => simp [splitComma]
  | cons c rest ih =>
    by_cases hc : (c == ',') = true
    · rw [splitComma.eq_2, if_pos hc]
      have hcc : c = ',' := by simpa using hc
      subst hcc
      simp [List.count_cons, ih]
    · rw [splitComma.eq_2, if_neg hc]
      have hcc : ¬ c = ',' := by simpa using hc
      have hne := splitComma_ne_nil rest
      rcases hsp : splitComma rest with _ | ⟨p, ps⟩
      · exact absurd hsp hne
      · rw [hsp] at ih
        simp only [List.length_cons] at ih ⊢
        rw [List.count_cons]
        simp only [beq_iff_eq]
        rw [if_neg hcc]
        omega

theorem splitComma_of_not_mem {l : List Char} (h : ',' ∉ l) :
    splitComma l = [l] := by
  induction l with
  | nil => rfl
  | cons c rest ih =>
    have hc : ¬(c == ',') = true := by
      simp only [beq_iff_eq]
      intro hx
      exact h (by simp [hx])
    have hr : ',' ∉ rest := fun hm => h (List.mem_cons_of_mem c hm)
    rw [splitComma.eq_2, if_neg hc, ih hr]

theorem splitComma_append {sa : List Char} (sb : List Char)
    (h : ',' ∉ sa) :
    splitComma (sa ++ ',' :: sb) = sa :: splitComma sb := by
  induction sa with
  | nil =>
    simp only [List.nil_append]
    rw [splitComma.eq_2]
    simp
  | cons c rest ih =>
    have hc : ¬(c == ',') = true := by
      simp only [beq_iff_eq]
      intro hx
      exact h (by simp [hx])
    have hr : ',' ∉ rest := fun hm => h (List.mem_cons_of_mem c hm)
    simp only [List.cons_append]
    rw [splitComma.eq_2, if_neg hc, ih hr]

theorem mk_ne_empty {l : List Char} (h : l ≠ []) : String.mk l ≠ "" := by
  intro hc
  exact h (by simpa [String.ext_iff] using hc)

theorem parseRange_two_ints (sa sb : List Char) (a b : Int)
    (ha : atoiCore sa = some a) (hb : atoiCore sb = some b) :
    parseRange (String.mk (sa ++ ',' :: sb)) = Except.ok (a, b) := by
  have hca := atoiCore_not_comma ha
  have hcb := atoiCore_not_comma hb
  have hsplit : splitComma (String.mk (sa ++ ',' :: sb)).data = [sa, sb] := by
    rw [show (String.mk (sa ++ ',' :: sb)).data = sa ++ ',' :: sb from rfl,
      splitComma_append sb hca, splitComma_of_not_mem hcb]
  have hne : String.mk (sa ++ ',' :: sb) ≠ "" := mk_ne_empty (by simp)
  unfold parseRange
  rw [if_neg hne, hsplit]
  simp [parsePart, ha, hb]

theorem parseRange_left_only (sa : List Char) (a : Int)
    (ha : atoiCore sa = some a) :
    parseRange (String.mk (sa ++ [','])) = Except.ok (a, -1) := by
  have hca := atoiCore_not_comma ha
  have hsplit : splitComma (String.mk (sa ++ [','])).data = [sa, []] := by
    rw [show (String.mk (sa ++ [','])).data = sa ++ ',' :: [] from rfl,
      splitComma_append [] hca]
    rfl
  have hne : String.mk (sa ++ [',']) ≠ "" := mk_ne_empty (by simp)
  unfold parseRange
  rw [if_neg hne, hsplit]
  have hbe : atoiCore ([] : List Char) = none := rfl
  simp [parsePart, ha, hbe]

theorem parseRange_right_only (sb : List Char) (b : Int)
    (hb : atoiCore sb = some b) :
    parseRange (String.mk (',' :: sb)) = Except.ok (-1, b) := by
  have hcb := atoiCore_not_comma hb
  have hsplit : splitComma (String.mk (',' :: sb)).data = [[], sb] := by
    rw [show (String.mk (',' :: sb)).data = [] ++ ',' :: sb from rfl,
      splitComma_append sb (by simp), splitComma_of_not_mem hcb]
  have hne : String.mk (',' :: sb) ≠ "" := mk_ne_empty (by simp)
  unfold parseRange
  rw [if_neg hne, hsplit]
  have hbe : atoiCore ([] : List Char) = none := rfl
  simp [parsePart, hb, hbe]

theorem parseRange_too_many_commas (r : String)
    (h2 : 2 ≤ r.data.count ',') : isErrE (parseRange r) = true := by
  have hlen := splitComma_length r.data
  have hne : r ≠ "" := by
    intro h0
    rw [h0] at h2
    simp at h2
  have hge : 0 < (splitComma r.data).length :=
    List.length_pos.mpr (splitComma_ne_nil _)
  unfold parseRange
  rw [if_neg hne, if_neg (by omega : ¬ (splitComma r.data).length < 1),
    if_pos (by omega : (splitComma r.data).length > 2)]
  rfl

theorem parseRange_bad_part (r : String) (part : List Char)
    (hmem : part ∈ splitComma r.data) (hne : part ≠ [])
    (hbad : atoiCore part = none) : isErrE (parseRange r) = true := by
  have hr : r ≠ "" := by
    intro h0
    rw [h0] at hmem
    simp only [show ("" : String).data = [] from rfl, splitComma] at hmem
    simp at hmem
    exact hne hmem
  have hpp : isErrE (parsePart part) = true := by
    unfold parsePart
    rw [hbad, if_neg (fun hx => hne (by simpa using hx))]
    rfl
  have hge : 0 < (splitComma r.data).length :=
    List.length_pos.mpr (splitComma_ne_nil _)
  unfold parseRange
  rw [if_neg hr, if_neg (by omega : ¬ (splitComma r.data).length < 1)]
  by_cases hlen : (splitComma r.data).length > 2
  · rw [if_pos hlen]
    rfl
  · rw [if_neg hlen]
    rcases hsp : splitComma r.data with _ | ⟨p0, rest⟩
    · exact absurd hsp (splitComma_ne_nil _)
    · rcases rest with _ | ⟨p1, rest2⟩
      · rw [hsp] at hmem
        simp at hmem
        subst hmem
        cases hp : parsePart part with
        | error e => simp [hp, isErrE]
        | ok n =>
          rw [hp] at hpp
          simp [isErrE] at hpp
      · rcases rest2 with _ | ⟨p2, rest3⟩
        · rw [hsp] at hmem
          simp at hmem
          rcases hmem with rfl | rfl
          · cases hp : parsePart part with
            | error e => simp [hp, isErrE]
            | ok n =>
              rw [hp] at hpp
              simp [isErrE] at hpp
          · cases hp0 : parsePart p0 with
            | error e => simp [hp0, isErrE]
            | ok n0 =>
              cases hp1 : parsePart part with
              | error e => simp [hp0, hp1, isErrE]
              | ok n1 =>
                rw [hp1] at hpp
                simp [isErrE] at hpp
        · exfalso
          rw [hsp] at hlen
          simp at hlen

theorem mainRun_range_error (dF fF xF : Bool) (statfmt cmdArg : String)
    (lookup : UserLookup) (roots : List (String × Option FSTree))
    (spec e : String) (hp : parseRange spec = Except.error e) :
    mainRun dF fF xF spec statfmt cmdArg lookup roots =
      ⟨[], [], "error: " ++ e ++ "\n" ++ usageText, some 1⟩ := by
  unfold mainRun
  rw [hp]

theorem renderLoop_cons (lookup : UserLookup) (path : String) (info : FileInfo)
    {t : Char} {s : String} (hs : renderTok lookup path info t = Except.ok s)
    (rest : List Char) (acc : String) :
    renderLoop lookup path info (t :: rest) acc =
      renderLoop lookup path info rest
        (if rest.isEmpty then acc ++ s else acc ++ s ++ " ") := by
  rw [renderLoop.eq_2, hs]

theorem renderLoop_ok (lookup : UserLookup) (path : String) (info : FileInfo)
    (toks : List Char)
    (h : ∀ t ∈ toks, isOkE (renderTok lookup path info t) = true) :
    ∀ acc, renderLoop lookup path info toks acc =
      (acc ++ joinSep (toks.map (tokText lookup path info)) ++ "\n", none) := by
  induction toks with
  | nil =>
    intro acc
    simp [renderLoop, joinSep]
  | cons t rest ih =>
    intro acc
    have ht := h t (List.mem_cons_self t rest)
    obtain ⟨s, hs⟩ : ∃ s, renderTok lookup path info t = Except.ok s := by
      cases hrt : renderTok lookup path info t with
      | ok s => exact ⟨s, rfl⟩
      | error e =>
        rw [hrt] at ht
        simp [isOkE] at ht
    rw [renderLoop_cons lookup path info hs rest acc]
    cases rest with
    | nil =>
      simp [renderLoop, hs, joinSep, tokText]
    | cons t2 r2 =>
      simp only [List.isEmpty_cons, Bool.false_eq_true, if_false]
      rw [ih (fun x hx => h x (List.mem_cons_of_mem t hx)) (acc ++ s ++ " ")]
      simp [joinSep, tokText, hs, String.append_assoc]

theorem renderTok_ok_of_no_lookup (lookup : UserLookup) (path : String)
    (info : FileInfo) (tok : Char)
    (h : ¬(tok = 'U' ∨ tok = 'G' ∨ tok = 'M' ∨ tok = 'a')) :
    ∃ s, renderTok lookup path info tok = Except.ok s := by
  unfold renderTok
  rw [if_neg h]
  repeat' split
  all_goals exact ⟨_, rfl⟩

theorem renderLoop_err (lookup : UserLookup) (path : String) (info : FileInfo)
    (hlk : lookup (toString info.uid) = none) (toks : List Char)
    (h : ∃ t ∈ toks, t = 'U' ∨ t = 'G' ∨ t = 'M' ∨ t = 'a') :
    ∀ acc, ((renderLoop lookup path info toks acc).2).isSome = true := by
  induction toks with
  | nil => simp at h
  | cons t rest ih =>
    intro acc
    by_cases ht : t = 'U' ∨ t = 'G' ∨ t = 'M' ∨ t = 'a'
    · have herr : renderTok lookup path info t =
          Except.error ("user: unknown userid " ++ toString info.uid) := by
        unfold renderTok
        rw [if_pos ht, hlk]
      simp [renderLoop, herr]
    · obtain ⟨s, hs⟩ := renderTok_ok_of_no_lookup lookup path info t ht
      simp only [renderLoop, hs]
      apply ih
      obtain ⟨t', ht', hp⟩ := h
      rcases List.mem_cons.mp ht' with rfl | hmem
      · exact absurd hp ht
      · exact ⟨t', hmem, hp⟩

theorem walkFn_depth_bound (cfg : Config) (lookup : UserLookup)
    (rootdepth : Int) (path : String) (info : FileInfo) (errIn : Option String)
    (hmx : 0 ≤ cfg.maxdepth) :
    ∀ pe ∈ (walkFn cfg lookup rootdepth path info errIn).1,
      (countSep pe.1 : Int) - rootdepth ≤ cfg.maxdepth := by
  intro pe hpe
  unfold walkFn at hpe
  cases errIn with
  | some e => simp at hpe
  | none =>
    simp only at hpe
    by_cases hskip :
        depthSkip cfg.mindepth cfg.maxdepth ((countSep path : Int) - rootdepth) = true
    · rw [if_pos hskip] at hpe
      simp at hpe
    · rw [if_neg hskip] at hpe
      have hle : (countSep path : Int) - rootdepth ≤ cfg.maxdepth := by
        unfold depthSkip at hskip
        simp only [Bool.or_eq_true, decide_eq_true_eq, not_or] at hskip
        rw [if_neg (by omega : ¬ cfg.maxdepth < 0)] at hskip
        omega
      split at hpe
      · simp at hpe
      · cases hp : printPath cfg lookup path info with
        | mk es e =>
          rw [hp] at hpe
          simp only at hpe
          obtain ⟨em, _, hpe2⟩ := List.mem_map.mp hpe
          rw [← hpe2]
          exact hle

mutual

theorem walkTree_depth_bound (cfg : Config) (lookup : UserLookup)
    (rootdepth : Int) (hmx : 0 ≤ cfg.maxdepth) (path : String) (t : FSTree) :
    ∀ pe ∈ (walkTree cfg lookup rootdepth path t).2.1,
      (countSep pe.1 : Int) - rootdepth ≤ cfg.maxdepth := by
  cases t with
  | node info readErr children =>
    intro pe hpe
    unfold walkTree at hpe
    by_cases hd : (!info.isDir) = true
    · rw [if_pos hd] at hpe
      cases hw : walkFn cfg lookup rootdepth path info none with
      | mk es e =>
        rw [hw] at hpe
        simp only at hpe
        exact walkFn_depth_bound cfg lookup rootdepth path info none hmx pe
          (by rw [hw]; exact hpe)
    · rw [if_neg hd] at hpe
      cases hw : walkFn cfg lookup rootdepth path info (readErrOf readErr path) with
      | mk es e1 =>
        rw [hw] at hpe
        simp only at hpe
        split at hpe
        · simp only at hpe
          exact walkFn_depth_bound cfg lookup rootdepth path info _ hmx pe
            (by rw [hw]; exact hpe)
        · cases hwc : walkChildren cfg lookup rootdepth path children with
          | mk v res =>
            cases res with
            | mk es2 e2 =>
              rw [hwc] at hpe
              simp only at hpe
              rcases List.mem_append.mp hpe with hl | hr
              · exact walkFn_depth_bound cfg lookup rootdepth path info _ hmx pe
                  (by rw [hw]; exact hl)
              · exact walkChildren_depth_bound cfg lookup rootdepth hmx path children pe
                  (by rw [hwc]; exact hr)

theorem walkChildren_depth_bound (cfg : Config) (lookup : UserLookup)
    (rootdepth : Int) (hmx : 0 ≤ cfg.maxdepth) (dirPath : String)
    (ts : List FSTree) :
    ∀ pe ∈ (walkChildren cfg lookup rootdepth dirPath ts).2.1,
      (countSep pe.1 : Int) - rootdepth ≤ cfg.maxdepth := by
  cases ts with
  | nil =>
    intro pe hpe
    simp [walkChildren] at hpe
  | cons t ts' =>
    intro pe hpe
    unfold walkChildren at hpe
    cases hw : walkTree cfg lookup rootdepth (dirPath ++ "/" ++ t.info.name) t with
    | mk v res =>
      cases res with
      | mk es e =>
        rw [hw] at hpe
        cases e with
        | some err =>
          simp only at hpe
          exact walkTree_depth_bound cfg lookup rootdepth hmx _ t pe
            (by rw [hw]; exact hpe)
        | none =>
          cases hwc : walkChildren cfg lookup rootdepth dirPath ts' with
          | mk v2 res2 =>
            cases res2 with
            | mk es2 e2 =>
              rw [hwc] at hpe
              simp only at hpe
              rcases List.mem_append.mp hpe with hl | hr
              · exact walkTree_depth_bound cfg lookup rootdepth hmx _ t pe
                  (by rw [hw]; exact hl)
              · exact walkChildren_depth_bound cfg lookup rootdepth hmx dirPath ts' pe
                  (by rw [hwc]; exact hr)

end

theorem str_empty_append (s : String) : "" ++ s = s := by
  apply String.ext
  rw [String.data_append]
  rfl

/-! ## The claims -/

/-- C1: the claim says that with `-x` set an entry none of whose
permission bits mark it executable is excluded from output, so a
`rw-r--r--` (0644) entry is excluded and a `rwxr-xr-x` (0755) entry is
included.  The walk callback never consults the `-x` flag, so both
entries are printed: the 0644 entry is not excluded, contradicting the
flag's own documentation ("Print only if the executable bit is set."). -/
theorem C1_exe_flag_never_consulted :
    walkFn cfgX lkRoot 0 "f" (fiF "f" 0o644) none =
      ([("f", Emit.line "f\n")], none) ∧
    walkFn cfgX lkRoot 0 "g" (fiF "g" 0o755) none =
      ([("g", Emit.line "g\n")], none) := by
  decide

/-- C2 counterexample: the claim says a per-entry traversal error only
skips that subtree, the walk continues, and no nonzero exit results.
On a root `a` with an unreadable subdirectory `a/b` followed by a
sibling `a/c`, the program reports the error, exits with status 1, and
never visits `a/c`. -/
theorem C2_traversal_error_abort_counterexample :
    runRoots cfgP lkRoot [("a", some tReadErr)] =
      ⟨["a", "a/b"], [("a", Emit.line "a\n")],
        "error: " ++ "open a/b: permission denied" ++ "\n" ++ usageText, some 1⟩ ∧
    (runRoots cfgP lkRoot [("a", some tReadErr)]).exitCode ≠ none ∧
    "a/c" ∉ (runRoots cfgP lkRoot [("a", some tReadErr)]).visited := by
  decide

/-- C2 amended: a traversal error (unreadable subtree or nonexistent
root) is reported to the error stream, but it is fatal: the walk stops
where the error occurred, the process exits with status 1, and the
remaining root arguments are not processed. -/
theorem C2_traversal_error_is_fatal (cfg : Config) (lookup : UserLookup)
    (arg : String) (root : Option FSTree) (rest : List (String × Option FSTree))
    (v : List String) (es : List (String × Emit)) (e : String)
    (hw : filepathWalk cfg lookup (trimArg arg) root = (v, es, some e)) :
    runRoots cfg lookup ((arg, root) :: rest) =
      ⟨v, es, "error: " ++ e ++ "\n" ++ usageText, some 1⟩ := by
  rw [runRoots.eq_2, hw]

/-- C2 witness: a nonexistent first root makes the program exit 1 with
the error reported; the second root is never walked. -/
theorem C2_traversal_error_is_fatal_witness :
    runRoots cfgP lkRoot
      [("x", none), ("y", some (FSTree.node (fiF "y" 0o644) false []))] =
      ⟨["x"], [],
        "error: " ++ "lstat x: no such file or directory" ++ "\n" ++ usageText,
        some 1⟩ :=
  C2_traversal_error_is_fatal cfgP lkRoot "x" none
    [("y", some (FSTree.node (fiF "y" 0o644) false []))]
    ["x"] [] "lstat x: no such file or directory" (by decide)

/-- C3: the claim says template expansion replaces `%` by the path and
copies all other characters verbatim, so `echo %` with path `a/b`
expands to `echo a/b`.  The scanner loop detects `%` by peeking while
holding the preceding character, then scans twice and never writes
either neighbour: `echo %` expands to `echoa/b` (the space before the
`%` is swallowed), contradicting the README's description of `%`
substitution; the `\%` escape does produce a literal `%`. -/
theorem C3_percent_expansion_eats_neighbors :
    runCmdExpand "echo %" "a/b" = "echoa/b" ∧
    runCmdExpand "echo %" "a/b" ≠ "echo a/b" ∧
    runCmdExpand "echo \\%" "a/b" = "echo %" := by
  decide

/-- C4 counterexample: the claim says a directory whose depth exceeds
the maximum is itself reported and none of its descendants are
visited.  With max depth 0 on the tree `a/c/g`: the directory `a/c`
(depth 1) is not reported, and its descendant `a/c/g` is visited by
the walk (the callback runs on it), since exceeding the maximum
returns `nil` rather than `SkipDir`. -/
theorem C4_prune_counterexample :
    (runRoots cfgM0 lkRoot [("a", some tDeep)]).emits.map Prod.fst = ["a"] ∧
    ("a/c", Emit.line "a/c\n") ∉ (runRoots cfgM0 lkRoot [("a", some tDeep)]).emits ∧
    "a/c/g" ∈ (runRoots cfgM0 lkRoot [("a", some tDeep)]).visited := by
  decide

/-- C4 amended: an entry whose depth exceeds a configured maximum is
itself skipped (not reported), and although the walk still descends
into such a directory, no entry whose depth exceeds the maximum is
ever emitted. -/
theorem C4_no_emitted_entry_beyond_maxdepth (cfg : Config)
    (lookup : UserLookup) (rootdepth : Int) (path : String) (t : FSTree)
    (hmx : 0 ≤ cfg.maxdepth) :
    ∀ pe ∈ (walkTree cfg lookup rootdepth path t).2.1,
      (countSep pe.1 : Int) - rootdepth ≤ cfg.maxdepth :=
  walkTree_depth_bound cfg lookup rootdepth hmx path t

/-- C4 witness: with maximum depth 0 the root `a` is emitted and its
depth is within the bound. -/
theorem C4_no_emitted_entry_beyond_maxdepth_witness :
    (countSep "a" : Int) - 0 ≤ cfgM0.maxdepth :=
  C4_no_emitted_entry_beyond_maxdepth cfgM0 lkRoot 0 "a" tDeep (by decide)
    ("a", Emit.line "a\n") (by decide)

/-- C5: the claim says a comma-free spec `N` yields min 0 and max N.
`strings.Split` never returns fewer than one part, so the branch meant
to set the maximum is unreachable and the single part sets the
minimum: `parseRange "5"` yields min 5 and max unset, contradicting
the README ("An argument of n with no comma is equivalent to 0,n."). -/
theorem C5_bare_number_yields_min :
    parseRange "5" = Except.ok (5, -1) ∧
    parseRange "5" ≠ Except.ok (0, 5) := by
  decide

/-- C6 counterexample: the claim says a literal (unrecognized)
character is never followed by an injected separator.  On the format
`-n` (literal `-`, then the name field) for a file named `f`, the
program prints `- f` with an injected space after the literal, while
the spec's separator rule produces `-f`. -/
theorem C6_literal_separator_counterexample :
    (renderLoop lkRoot "f" (fiF "f" 0o644) ['-', 'n'] "").1 = "- f\n" ∧
    renderSpec lkRoot "f" (fiF "f" 0o644) ['-', 'n'] = "-f\n" ∧
    ("- f\n" : String) ≠ "-f\n" := by
  decide

/-- C6 amended: one space follows the output of every token of the
format string — recognized field code or literal alike — except the
last token, and the line is terminated by a newline. -/
theorem C6_space_after_every_token (lookup : UserLookup) (path : String)
    (info : FileInfo) (toks : List Char)
    (h : ∀ t ∈ toks, isOkE (renderTok lookup path info t) = true) :
    renderLoop lookup path info toks "" =
      (joinSep (toks.map (tokText lookup path info)) ++ "\n", none) := by
  rw [renderLoop_ok lookup path info toks h "", str_empty_append]

/-- C6 witness: the format `-n` on a file named `f` renders as
`- f` followed by a newline. -/
theorem C6_space_after_every_token_witness :
    renderLoop lkRoot "f" (fiF "f" 0o644) ['-', 'n'] "" = ("- f\n", none) := by
  rw [C6_space_after_every_token lkRoot "f" (fiF "f" 0o644) ['-', 'n'] (by decide)]
  decide

/-- C7 counterexample: the claim says the `G` field emits the entry's
owning group identifier or name via the group-lookup collaborator.
For an entry with gid 100 whose owner uid 0 resolves to a user with
primary group id `50`, the program emits `50`, which is neither the
identifier `100` nor the name `wheel` that the group-lookup
collaborator yields for the entry's group metadata. -/
theorem C7_group_field_counterexample :
    renderTok lkRoot "p" (fiF "f" 0o644) 'G' = Except.ok "50" ∧
    gFieldAsSpecified grpWheel (fiF "f" 0o644) = some ⟨"100", "wheel"⟩ ∧
    ("50" : String) ≠ "100" ∧ ("50" : String) ≠ "wheel" := by
  decide

/-- C7 amended: the `G` field emits the `Gid` field of the user record
obtained by applying the user-lookup collaborator to the entry's owner
uid — the owner's primary group id; the entry's own group metadata and
any group lookup are not consulted. -/
theorem C7_G_emits_owner_user_gid (lookup : UserLookup) (path : String)
    (info : FileInfo) (u : GoUser)
    (hu : lookup (toString info.uid) = some u) :
    renderTok lookup path info 'G' = Except.ok u.gid := by
  unfold renderTok
  rw [if_pos (Or.inr (Or.inl rfl)), hu]
  show Except.ok (if 'G' = 'U' then u.uid
    else if 'G' = 'G' then u.gid
    else if 'G' = 'M' then u.name
    else toString info.atimSec) = Except.ok u.gid
  rw [if_neg (by decide), if_pos rfl]

/-- C7 witness: with uid 0 resolving to a user record with group id
`50`, the `G` field emits `50`. -/
theorem C7_G_emits_owner_user_gid_witness :
    renderTok lkRoot "p" (fiF "x" 0o644) 'G' = Except.ok "50" :=
  C7_G_emits_owner_user_gid lkRoot "p" (fiF "x" 0o644) ⟨"0", "50", "root"⟩
    (by decide)

/-- C8 counterexample: the claim says a user/group lookup failure never
aborts the entry's line or the walk.  With a failing lookup and format
`G`, the renderer aborts the line (no newline is emitted, an error is
returned), and running the walk on a single file exits with status 1. -/
theorem C8_lookup_failure_abort_counterexample :
    renderLoop lkNone "f" (fiF "f" 0o644) ['G'] "" =
      ("", some ("user: unknown userid " ++ "0")) ∧
    runRoots cfgG lkNone [("f", some (FSTree.node (fiF "f" 0o644) false []))] =
      ⟨["f"], [("f", Emit.line "")],
        "error: " ++ "user: unknown userid 0" ++ "\n" ++ usageText, some 1⟩ := by
  decide

/-- C8 amended: when the format string contains any of `U`, `G`, `M`,
`a` and the user lookup for the entry's uid fails, rendering the
entry's line aborts with an error (which the walk then propagates,
exiting nonzero). -/
theorem C8_lookup_failure_aborts_line (lookup : UserLookup) (path : String)
    (info : FileInfo) (toks : List Char)
    (hlk : lookup (toString info.uid) = none)
    (h : ∃ t ∈ toks, t = 'U' ∨ t = 'G' ∨ t = 'M' ∨ t = 'a') :
    ((renderLoop lookup path info toks "").2).isSome = true :=
  renderLoop_err lookup path info hlk toks h ""

/-- C8 witness: with an always-failing lookup, rendering the format
`nG` aborts with an error. -/
theorem C8_lookup_failure_aborts_line_witness :
    ((renderLoop lkNone "f" (fiF "g" 0o644) ['n', 'G'] "").2).isSome = true :=
  C8_lookup_failure_aborts_line lkNone "f" (fiF "g" 0o644) ['n', 'G']
    (by decide) ⟨'G', by decide, by decide⟩

/-- C9: `parseRange` yields (unset, unset) on the empty spec, (a, b)
on `a,b` with both sides Atoi-valid integers, (a, unset) on `a,`,
(unset, b) on `,b`; it fails on any spec with two or more commas and
on any spec with a non-empty comma-delimited part that is not a valid
integer; and a range error makes the program report it and exit 1
before any walking. -/
theorem C9_parse_range_contract :
    parseRange "" = Except.ok (-1, -1)
    ∧ (∀ sa sb : List Char, ∀ a b : Int, atoiCore sa = some a →
        atoiCore sb = some b →
        parseRange (String.mk (sa ++ ',' :: sb)) = Except.ok (a, b))
    ∧ (∀ sa : List Char, ∀ a : Int, atoiCore sa = some a →
        parseRange (String.mk (sa ++ [','])) = Except.ok (a, -1))
    ∧ (∀ sb : List Char, ∀ b : Int, atoiCore sb = some b →
        parseRange (String.mk (',' :: sb)) = Except.ok (-1, b))
    ∧ (∀ r : String, 2 ≤ r.data.count ',' → isErrE (parseRange r) = true)
    ∧ (∀ r : String, ∀ part ∈ splitComma r.data, part ≠ [] →
        atoiCore part = none → isErrE (parseRange r) = true)
    ∧ (∀ dF fF xF : Bool, ∀ statfmt cmdArg : String, ∀ lookup : UserLookup,
        ∀ roots : List (String × Option FSTree), ∀ spec e : String,
        parseRange spec = Except.error e →
        mainRun dF fF xF spec statfmt cmdArg lookup roots =
          ⟨[], [], "error: " ++ e ++ "\n" ++ usageText, some 1⟩) := by
  exact ⟨by decide, parseRange_two_ints, parseRange_left_only,
    parseRange_right_only, parseRange_too_many_commas, parseRange_bad_part,
    mainRun_range_error⟩

/-- C9 witness: concrete instances of each clause of the contract. -/
theorem C9_parse_range_contract_witness :
    parseRange "3,5" = Except.ok (3, 5) ∧
    parseRange "7," = Except.ok (7, -1) ∧
    parseRange ",9" = Except.ok (-1, 9) ∧
    isErrE (parseRange "1,2,3") = true ∧
    isErrE (parseRange "x,2") = true ∧
    mainRun false false false "x" "p" "" lkNone [] =
      ⟨[], [], "error: " ++ "invalid syntax: x" ++ "\n" ++ usageText, some 1⟩ := by
  refine ⟨?_, ?_, ?_, ?_, ?_, ?_⟩
  · exact C9_parse_range_contract.2.1 "3".data "5".data 3 5 (by decide) (by decide)
  · exact C9_parse_range_contract.2.2.1 "7".data 7 (by decide)
  · exact C9_parse_range_contract.2.2.2.1 "9".data 9 (by decide)
  · exact C9_parse_range_contract.2.2.2.2.1 "1,2,3" (by decide)
  · exact C9_parse_range_contract.2.2.2.2.2.1 "x,2" ['x'] (by decide) (by decide)
      (by decide)
  · exact C9_parse_range_contract.2.2.2.2.2.2 false false false "p" "" lkNone []
      "x" "invalid syntax: x" (by decide)

/-- C10: a negative depth bound — the unset sentinel `-1` or an
explicitly negative value, which the parser accepts — is replaced at
filter time by the entry's own depth, so it never excludes any entry;
with both bounds negative the depth filter admits every entry. -/
theorem C10_negative_bounds_admit_all :
    (∀ mn mx d : Int, mn < 0 → mx < 0 → depthSkip mn mx d = false)
    ∧ (∀ mn mx d : Int, mn < 0 → 0 ≤ mx → depthSkip mn mx d = decide (mx < d))
    ∧ (∀ mn mx d : Int, 0 ≤ mn → mx < 0 → depthSkip mn mx d = decide (d < mn))
    ∧ parseRange "-5,-3" = Except.ok (-5, -3) := by
  refine ⟨?_, ?_, ?_, by decide⟩
  · intro mn mx d hmn hmx
    unfold depthSkip
    rw [if_pos hmn, if_pos hmx]
    simp
  · intro mn mx d hmn hmx
    unfold depthSkip
    rw [if_pos hmn, if_neg (by omega)]
    simp
  · intro mn mx d hmn hmx
    unfold depthSkip
    rw [if_neg (by omega), if_pos hmx]
    simp

/-- C10 witness: concrete instances — both bounds negative admits an
entry at depth 5; a negative bound on one side leaves only the other
side's test. -/
theorem C10_negative_bounds_admit_all_witness :
    depthSkip (-1) (-1) 5 = false ∧
    depthSkip (-1) 3 9 = decide ((3 : Int) < 9) ∧
    depthSkip 2 (-1) 0 = decide ((0 : Int) < 2) := by
  refine ⟨?_, ?_, ?_⟩
  · exact C10_negative_bounds_admit_all.1 (-1) (-1) 5 (by decide) (by decide)
  · exact C10_negative_bounds_admit_all.2.1 (-1) 3 9 (by decide) (by decide)
  · exact C10_negative_bounds_admit_all.2.2.1 2 (-1) 0 (by decide) (by decide)
